import Mathlib

/-!
Verification development for the nao docs-agent repository.

This file gives a shallow embedding, in Lean 4, of the parts of the code
that the specification's claims are about:

* the value normalizer `convert_value` of `apps/backend/fastapi/main.py`
  (source function `_convert_value`);
* the database-connection resolution logic inside `execute_sql` of the
  same file, and the shape of the response it builds;
* `cleanup_stale_pages` and `ConfluenceSyncProvider.sync` of
  `cli/nao_core/commands/sync/providers/confluence/provider.py`, with the
  filesystem modelled as an explicit directory listing;
* the filename sanitization of `_convert_page_to_markdown`;
* `parse_provider_arg` of `cli/nao_core/commands/sync/providers/__init__.py`.

Python dynamic values are embedded as an inductive type `PyVal`; machine
floats are embedded by their classification (NaN / +inf / -inf / finite
payload), which is exact for everything the normalizer inspects, since it
only ever branches on `math.isnan` / `math.isinf` and otherwise carries the
value through unchanged.  Regex character classes (`\w`, `\s`) and
`str.lower` are modelled over their ASCII meaning.
-/

namespace NaoDocs

/-! ## Embedding of Python scalar values (backend value normalizer) -/

/-- Classification-level embedding of a Python/numpy IEEE float: the
normalizer only ever asks `math.isnan v` / `math.isinf v`, so a float is
represented by its class, finite floats carrying their (exact) value. -/
inductive FloatRepr where
  | nan
  | posInf
  | negInf
  | finite (q : Rat)
deriving DecidableEq, Repr

/-- `math.isnan v or math.isinf v` on an embedded float. -/
def FloatRepr.nonFinite : FloatRepr → Bool
  | .nan => true
  | .posInf => true
  | .negInf => true
  | .finite _ => false

/-- Embedding of `decimal.Decimal`: NaN, infinities, or an exact finite
value.  `Decimal.is_nan` / `Decimal.is_infinite` become exact predicates. -/
inductive DecimalRepr where
  | nan
  | posInf
  | negInf
  | finite (q : Rat)
deriving DecidableEq, Repr

/-- `v.is_nan() or v.is_infinite()` on an embedded decimal. -/
def DecimalRepr.nonFinite : DecimalRepr → Bool
  | .nan => true
  | .posInf => true
  | .negInf => true
  | .finite _ => false

/-- `float(d)` for a finite decimal (the non-finite cases are filtered out
before the conversion in the source). -/
def DecimalRepr.toFloat : DecimalRepr → FloatRepr
  | .nan => .nan
  | .posInf => .posInf
  | .negInf => .negInf
  | .finite q => .finite q

/-- A numpy scalar, as it sits inside a homogeneous numeric `np.ndarray`
(the shape the claims quantify over: one-dimensional numeric arrays). -/
inductive NpScalar where
  | b (v : Bool)
  | i (v : Int)
  | f (v : FloatRepr)
deriving DecidableEq, Repr

/-- Embedding of the Python values `_convert_value` can receive or return.
`vDatetime`/`vDate` carry the string their `isoformat()` renders to;
`vBytes` carries the string its UTF-8 decode-with-replacement renders to;
`vWrapper` is any remaining scalar-like object whose `item()` method
returns the carried value. -/
inductive PyVal where
  | vNone
  | vBool (b : Bool)
  | vInt (n : Int)
  | vFloat (f : FloatRepr)
  | vStr (s : String)
  | vList (elems : List PyVal)
  | pdNA
  | pdNaT
  | npBool (b : Bool)
  | npInt (n : Int)
  | npFloat (f : FloatRepr)
  | npArray (elems : List NpScalar)
  | vDecimal (d : DecimalRepr)
  | vDatetime (iso : String)
  | vDate (iso : String)
  | vBytes (decoded : String)
  | vWrapper (item : PyVal)

/-- `np.ndarray.tolist()` on one element: numpy scalars materialize to the
corresponding native Python values (NaN stays a float NaN). -/
def NpScalar.tolist : NpScalar → PyVal
  | .b v => .vBool v
  | .i v => .vInt v
  | .f v => .vFloat v

/-- Embedding of `_convert_value` (apps/backend/fastapi/main.py, lines
119-158).  The source is a chain of `isinstance` checks; the constructors
of `PyVal` are disjoint, so the chain becomes a match whose right-hand
sides follow the source branch by branch, in source order:
`None`; native float NaN/inf; `pd.NA`/`pd.NaT`; `np.bool_`; `np.integer`;
`np.floating`; `np.ndarray` (returns `v.tolist()` as-is); `Decimal`;
`datetime`/`date`; `bytes`; the `item()` catch-all; fallthrough. -/
def convert_value : PyVal → PyVal
  | .vNone => .vNone
  | .vFloat f => if f.nonFinite then .vNone else .vFloat f
  | .pdNA => .vNone
  | .pdNaT => .vNone
  | .npBool b => .vBool b
  | .npInt n => .vInt n
  | .npFloat f => if f.nonFinite then .vNone else .vFloat f
  | .npArray elems => .vList (elems.map NpScalar.tolist)
  | .vDecimal d => if d.nonFinite then .vNone else .vFloat d.toFloat
  | .vDatetime iso => .vStr iso
  | .vDate iso => .vStr iso
  | .vBytes decoded => .vStr decoded
  | .vWrapper item => item
  | .vBool b => .vBool b
  | .vInt n => .vInt n
  | .vStr s => .vStr s
  | .vList elems => .vList elems

/-! ## Database connection resolution (`execute_sql`, main.py lines 228-261) -/

/-- One configured database connection: its name and (opaque here) the
connection parameters it owns. -/
structure DbConfig where
  name : String
  dsn : String
deriving DecidableEq, Repr

/-- The three error shapes the resolution logic can raise, mirroring the
three `HTTPException` sites: no databases configured; the requested id
matched no name (detail carries `available_databases`); several databases
configured and no usable id (detail carries `available_databases`). -/
inductive ResolveErr where
  | noDatabasesConfigured
  | databaseNotFound (requested : String) (available : List String)
  | multipleDatabases (available : List String)
deriving DecidableEq, Repr

/-- Embedding of the connection-resolution block of `execute_sql`:

* `len(config.databases) == 0` raises "No databases configured";
* `len(config.databases) == 1` selects `config.databases[0]`;
* `elif request.database_id:` — note the Python truthiness test: both
  `None` and the empty string fall through to the final `else`;
* `next((db for db in config.databases if db.name == request.database_id),
  None)` is a first-match search, `None` raising "not found" with the
  list of available names;
* the final `else` raises "Multiple databases configured" with the same
  list. -/
def resolve_database (dbs : List DbConfig) (requestedId : Option String) :
    Except ResolveErr DbConfig :=
  match dbs with
  | [] => .error .noDatabasesConfigured
  | [db] => .ok db
  | _ :: _ :: _ =>
    match requestedId with
    | some rid =>
      if rid = "" then
        .error (.multipleDatabases (dbs.map DbConfig.name))
      else
        match dbs.find? (fun db => db.name = rid) with
        | some db => .ok db
        | none => .error (.databaseNotFound rid (dbs.map DbConfig.name))
    | none => .error (.multipleDatabases (dbs.map DbConfig.name))

/-! ## Query result shape (`execute_sql`, main.py lines 263-274) -/

/-- The eagerly materialized tabular result `db_config.execute_sql`
returns: the driver-reported column labels (modelled as already
stringified — `str` is the identity on `str` labels) and the rows, each a
list of cell values in column order. -/
structure DataFrame where
  cols : List String
  rows : List (List PyVal)

/-- The response body of `/execute_sql`: `data`, `row_count`, `columns`.
A row is an ordered mapping, embedded as an association list. -/
structure ExecuteSQLResponse where
  data : List (List (String × PyVal))
  row_count : Nat
  columns : List String

/-- `df.to_dict(orient="records")`: one mapping per row, keyed by the
column labels in column order. -/
def DataFrame.to_records (df : DataFrame) : List (List (String × PyVal)) :=
  df.rows.map (fun r => df.cols.zip r)

/-- Embedding of the response construction of `execute_sql` (main.py lines
265-274): normalize every cell of every record, set `row_count` to
`len(data)`, and report the stringified driver columns. -/
def build_sql_response (df : DataFrame) : ExecuteSQLResponse :=
  let data := df.to_records.map (fun row => row.map (fun kv => (kv.1, convert_value kv.2)))
  { data := data, row_count := data.length, columns := df.cols }

/-! ## Filesystem model

A directory listing is a list of entries; an entry is a file or a
subdirectory with its own listing.  A directory that may not exist is an
`Option` over its listing.  Only names matter to the claims (file contents
are irrelevant to the file-set level reconciliation properties). -/

/-- One entry directly under a directory. -/
inductive FsEntry where
  | file (name : String)
  | dir (name : String) (sub : List FsEntry)

/-- The entry's name, as `path.name` reports it. -/
def FsEntry.name : FsEntry → String
  | .file n => n
  | .dir n _ => n

/-- `path.is_file()`. -/
def FsEntry.isFile : FsEntry → Bool
  | .file _ => true
  | .dir _ _ => false

/-- A directory that may be absent, with its listing when present. -/
abbrev DirState : Type := Option (List FsEntry)

/-- `path.suffix == ".md"` under `pathlib` semantics: the suffix is the
part from the last dot, provided that dot is neither the first nor the
last character of the name; so the name must end with `".md"` preceded by
at least one character (the bare name `".md"` has no suffix). -/
def isMdName (n : String) : Bool :=
  match n.data.reverse with
  | 'd' :: 'm' :: '.' :: _ :: _ => true
  | _ => false

/-- Whether this entry is a stale managed file: a regular file with the
`.md` suffix whose name was not synced in this run. -/
def isStale (synced : List String) (e : FsEntry) : Bool :=
  e.isFile && isMdName e.name && !(synced.contains e.name)

/-- The `for file_path in output_path.iterdir()` loop of
`cleanup_stale_pages`: unlink every stale markdown file, counting the
removals, leaving every other entry in place. -/
def cleanupList (synced : List String) : List FsEntry → Nat × List FsEntry
  | [] => (0, [])
  | e :: es =>
    let rest := cleanupList synced es
    if isStale synced e then (rest.1 + 1, rest.2) else (rest.1, e :: rest.2)

/-- Embedding of `cleanup_stale_pages` (provider.py lines 16-39): if the
output path does not exist, return 0 without touching anything; otherwise
run the unlink loop and return the removal count together with the
resulting directory state. -/
def cleanup_stale_pages (synced : List String) (d : DirState) : Nat × DirState :=
  match d with
  | none => (0, none)
  | some l =>
    let r := cleanupList synced l
    (r.1, some r.2)

/-! ## Confluence page filenames (`_convert_page_to_markdown`, lines 262-266) -/

/-- The regex class `\w` (ASCII reading): letters, digits, underscore. -/
def isWordChar (c : Char) : Bool :=
  c.isAlphanum || c = '_'

/-- The regex class `\s` / the default `str.strip` class (ASCII reading):
space, tab, newline, carriage return, vertical tab, form feed. -/
def isSpaceChar (c : Char) : Bool :=
  c = ' ' || c = '\t' || c = '\n' || c = '\r' || c = '\x0b' || c = '\x0c'

/-- `str.strip()`: drop leading and trailing whitespace. -/
def stripChars (cs : List Char) : List Char :=
  ((cs.dropWhile isSpaceChar).reverse.dropWhile isSpaceChar).reverse

/-- The sanitization pipeline of `_convert_page_to_markdown` line 263:
`re.sub(r'[^\w\s-]', '', title).strip().replace(' ', '-').lower()`. -/
def sanitizeChars (cs : List Char) : List Char :=
  ((stripChars (cs.filter (fun c => isWordChar c || isSpaceChar c || c = '-'))).map
      (fun c => if c = ' ' then '-' else c)).map Char.toLower

/-- `f"{safe_title}.md"`: the filename the provider writes a page to,
as a function of its title. -/
def page_filename (title : String) : String :=
  String.mk (sanitizeChars title.data) ++ ".md"

/-! ## Confluence sync (`ConfluenceSyncProvider.sync`, provider.py lines 60-172) -/

/-- One upstream Confluence page as the sync loop sees it: its title
(which determines the filename) and whether the per-page `try` block —
fetching its body, rendering it, or writing the file — raises.  The flag
abstracts the nondeterministic upstream/filesystem failure the source
catches at lines 155-157. -/
structure Page where
  title : String
  fails : Bool
deriving DecidableEq, Repr

/-- Whether some entry directly under the listing has this name but is not
a regular file (then `open(filepath, "w")` raises, which the per-page
`try` catches). -/
def hasNonFileNamed (l : List FsEntry) (n : String) : Bool :=
  l.any (fun e => e.name == n && !e.isFile)

/-- `open(filepath, "w")` + `f.write(content)` at the file-set level:
overwrite the entry of that name when one exists, otherwise create the
file at the end of the listing. -/
def writeFile (l : List FsEntry) (n : String) : List FsEntry :=
  if l.any (fun e => e.name == n) then
    l.map (fun e => if e.name == n then .file n else e)
  else
    l ++ [.file n]

/-- The per-page loop of `sync` (provider.py lines 140-157): for each page
in order, a failing page is reported and skipped (the loop continues); a
successful page is written, counted in `total_pages_synced`, and its
filename added to `synced_files`.  Returns (pages synced, synced
filenames, resulting listing). -/
def syncLoop : List Page → List FsEntry → Nat × List String × List FsEntry
  | [], l => (0, [], l)
  | p :: ps, l =>
    if p.fails then syncLoop ps l
    else if hasNonFileNamed l (page_filename p.title) then syncLoop ps l
    else
      let rest := syncLoop ps (writeFile l (page_filename p.title))
      (rest.1 + 1, page_filename p.title :: rest.2.1, rest.2.2)

/-- The inputs `sync` branches on: whether `items` is non-empty, whether
the optional `atlassian` client library imports, and the pages collected
from all spaces (`all_pages_to_sync`, after per-space connection failures
have been caught at lines 120-121). -/
structure SyncInput where
  itemsConfigured : Bool
  depInstalled : Bool
  upstream : List Page

/-- What `sync` produces, at the level the claims observe: `items_synced`
of the returned `SyncResult`, the `removed` count of its details, and the
final state of the output directory. -/
structure SyncOutcome where
  items_synced : Nat
  removed : Nat
  dirState : DirState

/-- Embedding of `ConfluenceSyncProvider.sync` (provider.py lines 60-172):

* no items configured → early return, zero synced, directory untouched
  (line 77-79, before any filesystem access);
* `output_path.mkdir(parents=True, exist_ok=True)` (line 82) — creates
  the directory when absent, never alters existing entries;
* missing `atlassian` dependency → early return, zero synced (lines
  91-95, after the mkdir);
* zero pages collected → early return, zero synced, no reconciliation
  (lines 123-127);
* otherwise the per-page loop runs, then `cleanup_stale_pages` against
  the tracked filename set (line 160). -/
def ConfluenceSyncProvider.sync (inp : SyncInput) (d : DirState) : SyncOutcome :=
  if !inp.itemsConfigured then ⟨0, 0, d⟩
  else
    let l0 := d.getD []
    if !inp.depInstalled then ⟨0, 0, some l0⟩
    else if inp.upstream.isEmpty then ⟨0, 0, some l0⟩
    else
      let r := syncLoop inp.upstream l0
      let c := cleanupList r.2.1 r.2.2
      ⟨r.1, c.1, some c.2⟩

/-- Whether a page is processed successfully by the per-page loop against
a listing: its `try` block does not raise and its target filename is not
occupied by a non-file entry. -/
def pageOk (l : List FsEntry) (p : Page) : Bool :=
  !p.fails && !hasNonFileNamed l (page_filename p.title)

/-! ## Provider registry and selection (`providers/__init__.py`) -/

/-- The four registered provider kinds. -/
inductive ProviderKind where
  | notion
  | repositories
  | databases
  | confluence
deriving DecidableEq, Repr

/-- `PROVIDER_REGISTRY`: the fixed mapping from CLI-friendly (lowercase)
names to provider instances, in registry order. -/
def PROVIDER_REGISTRY : List (String × ProviderKind) :=
  [("notion", .notion), ("repositories", .repositories),
   ("databases", .databases), ("confluence", .confluence)]

/-- `PROVIDER_CHOICES`: the valid provider names, in registry order. -/
def PROVIDER_CHOICES : List String :=
  PROVIDER_REGISTRY.map Prod.fst

/-- `ProviderSelection`: a provider with an optional connection-name
filter. -/
structure ProviderSelection where
  provider : ProviderKind
  connectionName : Option String
deriving DecidableEq, Repr

/-- The `ValueError` raised for an unknown provider name, carrying the
offending name and the list of valid options it formats into its
message. -/
inductive ParseErr where
  | invalidProvider (given : String) (valid : List String)
deriving DecidableEq, Repr

/-- `arg.split(":", 1)` when `":" in arg`: the part before the first
colon and the (possibly colon-containing) part after it; `none` when the
argument has no colon. -/
def splitFirstColon : List Char → Option (List Char × List Char)
  | [] => none
  | c :: cs =>
    if c = ':' then some ([], cs)
    else
      match splitFirstColon cs with
      | some (l, r) => some (c :: l, r)
      | none => none

/-- `str.lower()` (ASCII reading, which covers every registry key). -/
def py_lower (s : String) : String :=
  String.mk (s.data.map Char.toLower)

/-- Embedding of `parse_provider_arg` (providers/__init__.py lines
39-59): split on the first `:` when present, lower-case the provider
name, look it up in the registry, and fail with the list of valid names
when it is not registered. -/
def parse_provider_arg (arg : String) : Except ParseErr ProviderSelection :=
  let parts :=
    match splitFirstColon arg.data with
    | some (l, r) => (String.mk l, some (String.mk r))
    | none => (arg, (none : Option String))
  match PROVIDER_REGISTRY.lookup (py_lower parts.1) with
  | some p => .ok ⟨p, parts.2⟩
  | none => .error (.invalidProvider parts.1 PROVIDER_CHOICES)

/-! ## Shared lemmas -/

/-- The unlink loop removes exactly the stale markdown files: the count is
the number of stale entries and the surviving listing is the in-order
filter of the non-stale ones. -/
theorem cleanupList_eq (synced : List String) (l : List FsEntry) :
    cleanupList synced l =
      ((l.filter (isStale synced)).length, l.filter (fun e => !isStale synced e)) := by
  induction l with
  | nil => rfl
  | cons e es ih =>
    cases h : isStale synced e <;>
      simp [cleanupList, List.filter_cons, h, ih]

/-! ## Claim theorems -/

/-- Claim C2: every non-finite floating value — a native Python float, a
numpy float scalar, or a `Decimal` that is NaN or infinite — is normalized
to null by `_convert_value`, never returned as the non-finite value. -/
theorem claim_c2_nonfinite_floats_null :
    (∀ f : FloatRepr, f.nonFinite = true →
      convert_value (.vFloat f) = .vNone ∧ convert_value (.npFloat f) = .vNone) ∧
    (∀ d : DecimalRepr, d.nonFinite = true →
      convert_value (.vDecimal d) = .vNone) := by
  constructor
  · intro f h
    constructor <;> simp [convert_value, h]
  · intro d h
    simp [convert_value, h]

/-- Witness for C2 at NaN, +inf and a decimal NaN. -/
theorem claim_c2_witness :
    convert_value (.vFloat .nan) = .vNone ∧
    convert_value (.npFloat .posInf) = .vNone ∧
    convert_value (.vDecimal .nan) = .vNone :=
  ⟨(claim_c2_nonfinite_floats_null.1 .nan rfl).1,
   (claim_c2_nonfinite_floats_null.1 .posInf rfl).2,
   claim_c2_nonfinite_floats_null.2 .nan rfl⟩

/-- Claim C3 (failing input): `_convert_value` on a numpy array returns
`v.tolist()` as-is, so a NaN element stays a float NaN in the output
sequence instead of being normalized to null — even though the same NaN,
normalized as a scalar, becomes null (second conjunct). -/
theorem claim_c3_array_nan_kept :
    convert_value (.npArray [.f .nan, .i 3]) = .vList [.vFloat .nan, .vInt 3] ∧
    convert_value (.vFloat .nan) = .vNone :=
  ⟨rfl, rfl⟩

/-- Claim C1 counterexample: with two configured databases, the first of
them named by the empty string, and the empty string as the requested id,
the claim as stated returns the matching entry; the code's
`elif request.database_id:` treats the empty string as falsy and raises
the "multiple databases" error instead. -/
theorem claim_c1_counterexample :
    2 ≤ ([⟨"", "dsn0"⟩, ⟨"b", "dsn1"⟩] : List DbConfig).length ∧
    ([⟨"", "dsn0"⟩, ⟨"b", "dsn1"⟩] : List DbConfig).find?
        (fun db => db.name = "") = some ⟨"", "dsn0"⟩ ∧
    resolve_database [⟨"", "dsn0"⟩, ⟨"b", "dsn1"⟩] (some "") =
      .error (.multipleDatabases ["", "b"]) :=
  ⟨by decide, by decide, rfl⟩

/-- Claim C1 (amended): database resolution — zero configs fail with the
configuration error; a single config is returned regardless of the
requested id; with several configs and a *non-empty* requested id, the
first config whose name equals the id is returned, and if no name matches
the resolution fails carrying every configured name; with several configs
and the id omitted *or empty* (Python truthiness), it fails carrying every
configured name. -/
theorem claim_c1_resolution (dbs : List DbConfig) (requestedId : Option String) :
    (dbs = [] → resolve_database dbs requestedId = .error .noDatabasesConfigured) ∧
    (∀ db0, dbs = [db0] → resolve_database dbs requestedId = .ok db0) ∧
    (2 ≤ dbs.length → ∀ rid, requestedId = some rid → rid ≠ "" →
      (∀ db, dbs.find? (fun db => db.name = rid) = some db →
        resolve_database dbs requestedId = .ok db) ∧
      ((∀ db ∈ dbs, db.name ≠ rid) →
        resolve_database dbs requestedId =
          .error (.databaseNotFound rid (dbs.map DbConfig.name)))) ∧
    (2 ≤ dbs.length → (requestedId = none ∨ requestedId = some "") →
      resolve_database dbs requestedId =
        .error (.multipleDatabases (dbs.map DbConfig.name))) := by
  refine ⟨?_, ?_, ?_, ?_⟩
  · rintro rfl
    rfl
  · rintro db0 rfl
    rfl
  · intro hlen rid hreq hrid
    subst hreq
    match dbs, hlen with
    | a :: b :: rest, _ =>
      constructor
      · intro db hfind
        simp only [resolve_database, if_neg hrid]
        rw [hfind]
      · intro hall
        have hnone : (a :: b :: rest).find? (fun db => db.name = rid) = none := by
          rw [List.find?_eq_none]
          intro x hx
          simpa using hall x hx
        simp only [resolve_database, if_neg hrid]
        rw [hnone]
  · intro hlen hcase
    match dbs, hlen with
    | a :: b :: rest, _ =>
      rcases hcase with rfl | rfl
      · rfl
      · simp [resolve_database]

/-- Witness for C1 (amended) at two databases and a matching id. -/
theorem claim_c1_witness :
    resolve_database [⟨"a", "dsnA"⟩, ⟨"b", "dsnB"⟩] (some "b") = .ok ⟨"b", "dsnB"⟩ :=
  ((claim_c1_resolution [⟨"a", "dsnA"⟩, ⟨"b", "dsnB"⟩] (some "b")).2.2.1
    (by decide) "b" rfl (by decide)).1 ⟨"b", "dsnB"⟩ (by decide)

/-- Claim C4: reconciliation deletes exactly the regular `.md` files
directly under the output path whose name is not in the synced set,
returning their number; directories (with their contents) and files of
other types survive in place, and an absent output path removes nothing
and returns zero. -/
theorem claim_c4_reconciliation (synced : List String) (l : List FsEntry) :
    cleanup_stale_pages synced none = (0, none) ∧
    cleanup_stale_pages synced (some l) =
      ((l.filter (isStale synced)).length,
       some (l.filter (fun e => !isStale synced e))) := by
  refine ⟨rfl, ?_⟩
  simp [cleanup_stale_pages, cleanupList_eq]

/-- Claim C9: the `/execute_sql` response satisfies
`row_count = len(data)`, reports exactly the driver columns, and every
returned row is keyed by exactly the declared columns, in order — given
the driver invariant that each materialized row has one cell per
column. -/
theorem claim_c9_result_shape (df : DataFrame)
    (h : ∀ r ∈ df.rows, r.length = df.cols.length) :
    (build_sql_response df).row_count = (build_sql_response df).data.length ∧
    (build_sql_response df).columns = df.cols ∧
    ∀ row ∈ (build_sql_response df).data, row.map Prod.fst = df.cols := by
  refine ⟨rfl, rfl, ?_⟩
  intro row hrow
  simp only [build_sql_response, DataFrame.to_records, List.map_map,
    List.mem_map] at hrow
  obtain ⟨r, hr, rfl⟩ := hrow
  simp only [Function.comp_apply]
  rw [List.map_map]
  rw [show (Prod.fst ∘ fun kv : String × PyVal => (kv.1, convert_value kv.2)) =
      (Prod.fst : String × PyVal → String) from rfl]
  rw [List.map_fst_zip]
  exact le_of_eq (h r hr).symm

/-- Witness for C9: the spec's end-to-end scenario `SELECT 1 AS x`. -/
theorem claim_c9_witness :
    (build_sql_response ⟨["x"], [[.vInt 1]]⟩).row_count =
      (build_sql_response ⟨["x"], [[.vInt 1]]⟩).data.length ∧
    (build_sql_response ⟨["x"], [[.vInt 1]]⟩).columns = ["x"] ∧
    ∀ row ∈ (build_sql_response ⟨["x"], [[.vInt 1]]⟩).data,
      row.map Prod.fst = ["x"] :=
  claim_c9_result_shape ⟨["x"], [[.vInt 1]]⟩
    (by
      intro r hr
      rw [List.mem_singleton] at hr
      subst hr
      rfl)

/-! ## Character-level lemmas for the filename sanitizer -/

/-- Characters with equal codepoints are equal. -/
theorem char_eq_of_toNat_eq {a b : Char} (h : a.toNat = b.toNat) : a = b :=
  Char.ext (UInt32.ext h)

/-- `Char.ofNat` round-trips on codepoints below the surrogate range. -/
theorem toNat_ofNat_of_lt {n : Nat} (h : n < 55296) : (Char.ofNat n).toNat = n := by
  have hv : n.isValidChar := Or.inl h
  rw [Char.ofNat, dif_pos hv]
  rfl

/-- The codepoint of `Char.toLower`: shifted by 32 on ASCII uppercase,
unchanged otherwise. -/
theorem toLower_toNat (c : Char) :
    (Char.toLower c).toNat =
      if 65 ≤ c.toNat ∧ c.toNat ≤ 90 then c.toNat + 32 else c.toNat := by
  unfold Char.toLower
  split
  case isTrue h =>
    rw [if_pos ⟨h.1, h.2⟩]
    exact toNat_ofNat_of_lt (by omega)
  case isFalse h =>
    rw [if_neg h]

/-- `Char.toLower` never produces an ASCII uppercase letter. -/
theorem toLower_not_upper (c : Char) :
    ¬(65 ≤ (Char.toLower c).toNat ∧ (Char.toLower c).toNat ≤ 90) := by
  rw [toLower_toNat]
  by_cases h : 65 ≤ c.toNat ∧ c.toNat ≤ 90
  · rw [if_pos h]
    omega
  · rw [if_neg h]
    omega

/-- `Char.toLower` maps non-space characters to non-space characters. -/
theorem toLower_toNat_ne_32 {c : Char} (h : c.toNat ≠ 32) :
    (Char.toLower c).toNat ≠ 32 := by
  rw [toLower_toNat]
  split <;> omega

/-- Claim C7 counterexample: the sanitizer is not collision-resistant —
the two distinct titles `"A B"` and `"a-b"` map to the same filename. -/
theorem claim_c7_counterexample :
    page_filename "A B" = "a-b.md" ∧
    page_filename "a-b" = "a-b.md" ∧
    ("A B" : String) ≠ "a-b" :=
  ⟨rfl, rfl, by decide⟩

/-- Claim C7 (amended): the filename is a deterministic function of the
title — the sanitized title (word characters, whitespace and hyphens
kept, trimmed, spaces hyphenated, lower-cased) followed by `.md` — and
the sanitized part contains no space and no ASCII uppercase letter
(codepoints 65-90); but it is not collision-resistant: distinct titles
can yield the same filename (see the counterexample). -/
theorem claim_c7_filename_shape (t : String) :
    (page_filename t).data = sanitizeChars t.data ++ ['.', 'm', 'd'] ∧
    ∀ c ∈ sanitizeChars t.data,
      c ≠ ' ' ∧ ¬(65 ≤ c.toNat ∧ c.toNat ≤ 90) := by
  constructor
  · simp [page_filename, String.data_append]
  · intro c hc
    unfold sanitizeChars at hc
    obtain ⟨c1, hc1, rfl⟩ := List.mem_map.1 hc
    obtain ⟨c2, _, rfl⟩ := List.mem_map.1 hc1
    have hne : (if c2 = ' ' then '-' else c2).toNat ≠ 32 := by
      by_cases h2 : c2 = ' '
      · rw [if_pos h2]
        decide
      · rw [if_neg h2]
        intro h32
        exact h2 (char_eq_of_toNat_eq h32)
    refine ⟨?_, toLower_not_upper _⟩
    intro heq
    exact toLower_toNat_ne_32 hne (congrArg Char.toNat heq)

/-- Witness for C7 (amended) at the title `"A B"` and its character `'a'`. -/
theorem claim_c7_witness :
    (page_filename "A B").data = sanitizeChars ("A B" : String).data ++ ['.', 'm', 'd'] ∧
    ('a' ≠ ' ' ∧ ¬(65 ≤ 'a'.toNat ∧ 'a'.toNat ≤ 90)) :=
  ⟨(claim_c7_filename_shape "A B").1,
   (claim_c7_filename_shape "A B").2 'a' (by decide)⟩

/-! ## Lemmas for provider-token parsing -/

/-- A colon-free character list does not split. -/
theorem splitFirstColon_of_not_mem (l : List Char) (h : ':' ∉ l) :
    splitFirstColon l = none := by
  induction l with
  | nil => rfl
  | cons c cs ih =>
    simp only [List.mem_cons, not_or] at h
    simp only [splitFirstColon]
    rw [if_neg (fun hc => h.1 hc.symm), ih h.2]

/-- Splitting at the first colon recovers the colon-free prefix and the
full (possibly colon-containing) remainder. -/
theorem splitFirstColon_append (l r : List Char) (h : ':' ∉ l) :
    splitFirstColon (l ++ ':' :: r) = some (l, r) := by
  induction l with
  | nil => simp [splitFirstColon]
  | cons c cs ih =>
    simp only [List.mem_cons, not_or] at h
    simp only [List.cons_append, splitFirstColon]
    rw [if_neg (fun hc => h.1 hc.symm)]
    rw [show cs.append (':' :: r) = cs ++ ':' :: r from rfl, ih h.2]

/-- Claim C8: a token with a colon is split at its first colon — the left
side, lower-cased, selects the registered provider and the full right
side is carried as the connection-name filter; a colon-free token selects
the provider with no filter; a left side matching no registered name
fails with the error listing the valid provider names. -/
theorem claim_c8_provider_tokens :
    (∀ left right : String, ':' ∉ left.data →
      parse_provider_arg (left ++ ":" ++ right) =
        match PROVIDER_REGISTRY.lookup (py_lower left) with
        | some p => .ok ⟨p, some right⟩
        | none => .error (.invalidProvider left PROVIDER_CHOICES)) ∧
    (∀ arg : String, ':' ∉ arg.data →
      parse_provider_arg arg =
        match PROVIDER_REGISTRY.lookup (py_lower arg) with
        | some p => .ok ⟨p, none⟩
        | none => .error (.invalidProvider arg PROVIDER_CHOICES)) := by
  constructor
  · intro left right h
    have hdata : (left ++ ":" ++ right).data = left.data ++ ':' :: right.data := by
      simp [String.data_append]
    simp only [parse_provider_arg, hdata, splitFirstColon_append _ _ h]
  · intro arg h
    simp only [parse_provider_arg, splitFirstColon_of_not_mem _ h]

/-- Witness for C8: mixed-case provider with a colon-containing
connection name, and an unknown provider name. -/
theorem claim_c8_witness :
    parse_provider_arg "DataBases:my:conn" =
      .ok ⟨.databases, some "my:conn"⟩ ∧
    parse_provider_arg "bogus" =
      .error (.invalidProvider "bogus"
        ["notion", "repositories", "databases", "confluence"]) :=
  ⟨(claim_c8_provider_tokens.1 "DataBases" "my:conn" (by decide)).trans (by rfl),
   (claim_c8_provider_tokens.2 "bogus" (by decide)).trans (by rfl)⟩

/-! ## Lemmas about writes, the sync loop and reconciliation -/

/-- `List.any` respects pointwise-equal predicates on the members. -/
theorem list_any_congr {α : Type} {p q : α → Bool} {l : List α}
    (h : ∀ x ∈ l, p x = q x) : l.any p = l.any q := by
  induction l with
  | nil => rfl
  | cons a t ih =>
    simp only [List.any_cons]
    rw [h a (List.mem_cons_self a t),
      ih (fun x hx => h x (List.mem_cons_of_mem a hx))]

/-- Writing a file whose name is not held by any non-file entry does not
change which names are held by non-file entries. -/
theorem hasNonFileNamed_writeFile (l : List FsEntry) (n : String)
    (h : hasNonFileNamed l n = false) (m : String) :
    hasNonFileNamed (writeFile l n) m = hasNonFileNamed l m := by
  unfold writeFile
  split
  case isTrue _ =>
    unfold hasNonFileNamed at h ⊢
    rw [List.any_map]
    refine list_any_congr ?_
    intro e he
    simp only [Function.comp_apply]
    cases hn : (e.name == n)
    · simp [hn]
    · have h2 := List.any_eq_false.mp h e he
      have hf : e.isFile = true := by
        cases hisf : e.isFile
        · exact absurd (by rw [hn, hisf]; rfl) h2
        · rfl
      simp [hf]
      intro _
      rfl
  case isFalse _ =>
    unfold hasNonFileNamed
    rw [List.any_append]
    simp [FsEntry.name, FsEntry.isFile]

/-- A file present in the listing is still present after any write. -/
theorem mem_writeFile_of_mem {l : List FsEntry} {m : String}
    (h : FsEntry.file m ∈ l) (n : String) :
    FsEntry.file m ∈ writeFile l n := by
  unfold writeFile
  split
  case isTrue _ =>
    refine List.mem_map.2 ⟨.file m, h, ?_⟩
    simp only [FsEntry.name]
    split
    case isTrue hmn => exact congrArg FsEntry.file (eq_of_beq hmn).symm
    case isFalse _ => rfl
  case isFalse _ =>
    exact List.mem_append_left _ h

/-- The file just written is present after the write. -/
theorem file_self_mem_writeFile (l : List FsEntry) (n : String) :
    FsEntry.file n ∈ writeFile l n := by
  unfold writeFile
  split
  case isTrue h =>
    obtain ⟨e, he, hn⟩ := List.any_eq_true.mp h
    refine List.mem_map.2 ⟨e, he, ?_⟩
    split
    case isTrue _ => rfl
    case isFalse hfalse => exact absurd hn hfalse
  case isFalse _ =>
    exact List.mem_append_right _ (List.mem_singleton.2 rfl)

/-- Writing a file that already exists as a regular file (and whose name
is held by no non-file entry) leaves the listing unchanged. -/
theorem writeFile_eq_self {l : List FsEntry} {n : String}
    (hnb : hasNonFileNamed l n = false) (hmem : FsEntry.file n ∈ l) :
    writeFile l n = l := by
  unfold writeFile
  rw [if_pos (List.any_eq_true.2 ⟨.file n, hmem, by simp [FsEntry.name]⟩)]
  have hpt : ∀ e ∈ l, (if e.name == n then FsEntry.file n else e) = e := by
    intro e he
    cases hn : (e.name == n)
    · simp [hn]
    · have h2 := List.any_eq_false.mp hnb e he
      have hf : e.isFile = true := by
        cases hisf : e.isFile
        · exact absurd (by rw [hn, hisf]; rfl) h2
        · rfl
      have hname : e.name = n := eq_of_beq hn
      cases e with
      | file nm =>
        simp only [FsEntry.name] at hname
        simp [hn, hname]
      | dir nm sub => simp [FsEntry.isFile] at hf
  calc l.map (fun e => if e.name == n then FsEntry.file n else e)
      = l.map id := List.map_congr_left (by simpa using hpt)
    _ = l := List.map_id l

/-- Removing stale files does not change which names are held by
non-file entries. -/
theorem hasNonFileNamed_filter_stale (s : List String) (l : List FsEntry)
    (m : String) :
    hasNonFileNamed (l.filter (fun e => !isStale s e)) m
      = hasNonFileNamed l m := by
  unfold hasNonFileNamed
  rw [List.any_filter]
  refine list_any_congr ?_
  intro e _
  cases hisf : e.isFile
  · have hst : isStale s e = false := by
      unfold isStale
      rw [hisf]
      rfl
    rw [hst]
    simp
  · simp [hisf]

/-- The sync loop's count and synced-filename set are those of the pages
that are processed successfully, in order; whether a page is processed
successfully is independent of the other pages (blocking only depends on
the non-file entries, which no write changes). -/
theorem syncLoop_count_synced (pages : List Page) (l : List FsEntry) :
    (syncLoop pages l).1 = (pages.filter (pageOk l)).length ∧
    (syncLoop pages l).2.1 =
      (pages.filter (pageOk l)).map (fun p => page_filename p.title) := by
  induction pages generalizing l with
  | nil => exact ⟨rfl, rfl⟩
  | cons p ps ih =>
    cases hf : p.fails
    · cases hb : hasNonFileNamed l (page_filename p.title)
      · have hok : pageOk l p = true := by simp [pageOk, hf, hb]
        have htrans : ∀ x ∈ ps,
            pageOk (writeFile l (page_filename p.title)) x = pageOk l x := by
          intro x _
          simp [pageOk, hasNonFileNamed_writeFile l _ hb]
        obtain ⟨ihc, ihs⟩ := ih (writeFile l (page_filename p.title))
        rw [List.filter_congr htrans] at ihc ihs
        constructor
        · simp [syncLoop, hf, hb, List.filter_cons_of_pos hok, ihc]
        · simp [syncLoop, hf, hb, List.filter_cons_of_pos hok, ihs]
      · have hok : pageOk l p = false := by simp [pageOk, hf, hb]
        have hneg : ¬ pageOk l p = true := by simp [hok]
        obtain ⟨ihc, ihs⟩ := ih l
        constructor
        · simp [syncLoop, hf, hb, List.filter_cons_of_neg hneg, ihc]
        · simp [syncLoop, hf, hb, List.filter_cons_of_neg hneg, ihs]
    · have hok : pageOk l p = false := by simp [pageOk, hf]
      have hneg : ¬ pageOk l p = true := by simp [hok]
      obtain ⟨ihc, ihs⟩ := ih l
      constructor
      · simp [syncLoop, hf, List.filter_cons_of_neg hneg, ihc]
      · simp [syncLoop, hf, List.filter_cons_of_neg hneg, ihs]

/-- The sync loop does not change which names are held by non-file
entries. -/
theorem syncLoop_nonFiles (pages : List Page) (l : List FsEntry) (m : String) :
    hasNonFileNamed (syncLoop pages l).2.2 m = hasNonFileNamed l m := by
  induction pages generalizing l with
  | nil => rfl
  | cons p ps ih =>
    cases hf : p.fails
    · cases hb : hasNonFileNamed l (page_filename p.title)
      · simp only [syncLoop, hf, hb]
        simp only [Bool.false_eq_true, if_false]
        rw [ih (writeFile l (page_filename p.title))]
        exact hasNonFileNamed_writeFile l _ hb m
      · simp [syncLoop, hf, hb, ih]
    · simp [syncLoop, hf, ih]

/-- Files present before the loop are still present after it. -/
theorem syncLoop_file_mem (pages : List Page) (l : List FsEntry)
    {m : String} (h : FsEntry.file m ∈ l) :
    FsEntry.file m ∈ (syncLoop pages l).2.2 := by
  induction pages generalizing l with
  | nil => exact h
  | cons p ps ih =>
    cases hf : p.fails
    · cases hb : hasNonFileNamed l (page_filename p.title)
      · simp only [syncLoop, hf, hb]
        simp only [Bool.false_eq_true, if_false]
        exact ih _ (mem_writeFile_of_mem h _)
      · simp [syncLoop, hf, hb]
        exact ih _ h
    · simp [syncLoop, hf]
      exact ih _ h

/-- Every filename the loop reports as synced exists as a file in the
loop's final listing. -/
theorem syncLoop_synced_mem (pages : List Page) (l : List FsEntry) :
    ∀ m ∈ (syncLoop pages l).2.1, FsEntry.file m ∈ (syncLoop pages l).2.2 := by
  induction pages generalizing l with
  | nil => intro m hm; cases hm
  | cons p ps ih =>
    intro m hm
    cases hf : p.fails
    · cases hb : hasNonFileNamed l (page_filename p.title)
      · simp only [syncLoop, hf, hb] at hm ⊢
        simp only [Bool.false_eq_true, if_false] at hm ⊢
        rcases List.mem_cons.1 hm with rfl | hm2
        · exact syncLoop_file_mem ps _ (file_self_mem_writeFile l _)
        · exact ih _ m hm2
      · simp only [syncLoop, hf, hb] at hm ⊢
        simp only [Bool.false_eq_true, if_false] at hm ⊢
        exact ih _ m hm
    · simp only [syncLoop, hf] at hm ⊢
      simp only [if_true] at hm ⊢
      exact ih _ m hm

/-- If every successfully processed page's file already exists in the
listing, the loop leaves the listing unchanged. -/
theorem syncLoop_listing_id (pages : List Page) (l : List FsEntry)
    (h : ∀ p ∈ pages, pageOk l p = true →
      FsEntry.file (page_filename p.title) ∈ l) :
    (syncLoop pages l).2.2 = l := by
  induction pages with
  | nil => rfl
  | cons p ps ih =>
    cases hf : p.fails
    · cases hb : hasNonFileNamed l (page_filename p.title)
      · have hmem : FsEntry.file (page_filename p.title) ∈ l :=
          h p (List.mem_cons_self p ps) (by simp [pageOk, hf, hb])
        have hw : writeFile l (page_filename p.title) = l :=
          writeFile_eq_self hb hmem
        simp only [syncLoop, hf, hb]
        simp only [Bool.false_eq_true, if_false]
        rw [hw]
        exact ih (fun q hq => h q (List.mem_cons_of_mem p hq))
      · simp only [syncLoop, hf, hb]
        simp only [Bool.false_eq_true, if_false]
        exact ih (fun q hq => h q (List.mem_cons_of_mem p hq))
    · simp only [syncLoop, hf]
      simp only [if_true]
      exact ih (fun q hq => h q (List.mem_cons_of_mem p hq))

/-- Dropping a failing page from the list of pages to sync does not
change the loop's outcome at all. -/
theorem syncLoop_skip (pre : List Page) (p : Page) (post : List Page)
    (l : List FsEntry) (hf : p.fails = true) :
    syncLoop (pre ++ p :: post) l = syncLoop (pre ++ post) l := by
  induction pre generalizing l with
  | nil => simp [syncLoop, hf]
  | cons a t ih =>
    cases ha : a.fails
    · cases hb : hasNonFileNamed l (page_filename a.title)
      · simp only [List.cons_append, syncLoop, ha, hb]
        simp only [Bool.false_eq_true, if_false, List.append_eq]
        rw [ih]
      · simp only [List.cons_append, syncLoop, ha, hb]
        simp only [Bool.false_eq_true, if_false]
        exact ih l
    · simp only [List.cons_append, syncLoop, ha]
      simp only [if_true]
      exact ih l

/-- `List.contains` agrees with membership (String instance). -/
theorem contains_eq_true_of_mem {a : String} {l : List String} (h : a ∈ l) :
    l.contains a = true :=
  List.elem_eq_true_of_mem h

/-- `List.contains` agrees with non-membership (String instance). -/
theorem contains_eq_false_of_not_mem {a : String} {l : List String}
    (h : a ∉ l) : l.contains a = false := by
  cases hc : l.contains a
  · rfl
  · exact absurd (List.elem_iff.mp hc) h

/-- After one reconciliation pass nothing stale is left: filtering the
survivors again removes nothing. -/
theorem filter_stale_filter_self (s : List String) (l : List FsEntry) :
    (l.filter (fun e => !isStale s e)).filter (isStale s) = [] ∧
    (l.filter (fun e => !isStale s e)).filter (fun e => !isStale s e)
      = l.filter (fun e => !isStale s e) := by
  constructor
  · rw [List.filter_eq_nil_iff]
    intro e he
    have h2 := (List.mem_filter.1 he).2
    intro habs
    rw [habs] at h2
    exact Bool.noConfusion h2
  · rw [List.filter_eq_self]
    intro e he
    exact (List.mem_filter.1 he).2

/-- The sync pipeline on the branch that reaches the page loop: with both
guards passing and a non-empty page list, the outcome is the loop followed
by the reconciliation of its tracked filename set. -/
theorem sync_eq_of_flags (inp : SyncInput) (d : DirState)
    (hic : inp.itemsConfigured = true) (hdep : inp.depInstalled = true)
    (hne : inp.upstream ≠ []) :
    ConfluenceSyncProvider.sync inp d =
      ⟨(syncLoop inp.upstream (d.getD [])).1,
       ((syncLoop inp.upstream (d.getD [])).2.2.filter
          (isStale (syncLoop inp.upstream (d.getD [])).2.1)).length,
       some ((syncLoop inp.upstream (d.getD [])).2.2.filter
          (fun e => !isStale (syncLoop inp.upstream (d.getD [])).2.1 e))⟩ := by
  have hemp : inp.upstream.isEmpty = false := by
    cases hu : inp.upstream
    · exact absurd hu hne
    · rfl
  simp [ConfluenceSyncProvider.sync, hic, hdep, hemp, cleanupList_eq]

/-- Running the page loop a second time, on the listing left by a full
loop-plus-reconciliation pass, reproduces the same count, the same synced
set, and leaves the listing unchanged. -/
theorem syncLoop_round2 (pages : List Page) (l0 : List FsEntry) :
    (syncLoop pages ((syncLoop pages l0).2.2.filter
        (fun e => !isStale (syncLoop pages l0).2.1 e))).1
      = (syncLoop pages l0).1 ∧
    (syncLoop pages ((syncLoop pages l0).2.2.filter
        (fun e => !isStale (syncLoop pages l0).2.1 e))).2.1
      = (syncLoop pages l0).2.1 ∧
    (syncLoop pages ((syncLoop pages l0).2.2.filter
        (fun e => !isStale (syncLoop pages l0).2.1 e))).2.2
      = (syncLoop pages l0).2.2.filter
          (fun e => !isStale (syncLoop pages l0).2.1 e) := by
  have hcs := syncLoop_count_synced pages l0
  have hnfR := syncLoop_nonFiles pages l0
  have hsmR := syncLoop_synced_mem pages l0
  generalize hE : syncLoop pages l0 = R at hcs hnfR hsmR ⊢
  obtain ⟨hc1, hs1⟩ := hcs
  have hnf : ∀ m, hasNonFileNamed (R.2.2.filter (fun e => !isStale R.2.1 e)) m
      = hasNonFileNamed l0 m := by
    intro m
    rw [hasNonFileNamed_filter_stale]
    exact hnfR m
  have hok : ∀ q ∈ pages,
      pageOk (R.2.2.filter (fun e => !isStale R.2.1 e)) q = pageOk l0 q := by
    intro q _
    simp [pageOk, hnf]
  obtain ⟨hc2, hs2⟩ :=
    syncLoop_count_synced pages (R.2.2.filter (fun e => !isStale R.2.1 e))
  rw [List.filter_congr hok] at hc2 hs2
  refine ⟨?_, ?_, ?_⟩
  · rw [hc2, hc1]
  · rw [hs2, hs1]
  · apply syncLoop_listing_id
    intro q hq hqok
    have hq0 : pageOk l0 q = true := by
      rw [← hok q hq]
      exact hqok
    have hfn : page_filename q.title ∈ R.2.1 := by
      rw [hs1]
      exact List.mem_map.2 ⟨q, List.mem_filter.2 ⟨hq, hq0⟩, rfl⟩
    have hmem1 : FsEntry.file (page_filename q.title) ∈ R.2.2 := hsmR _ hfn
    refine List.mem_filter.2 ⟨hmem1, ?_⟩
    have hcont := contains_eq_true_of_mem hfn
    simp [isStale, FsEntry.isFile, FsEntry.name, hcont]
    exact Or.inr hfn

/-- Claim C10: each early-return path of the Confluence sync — no items
configured, missing `atlassian` dependency, or zero pages collected —
returns zero items synced and zero removals without invoking
reconciliation: the directory is at most created (`mkdir`), never pruned,
so every entry previously under the output path is still there. -/
theorem claim_c10_early_paths (inp : SyncInput) (d : DirState) :
    (inp.itemsConfigured = false →
      ConfluenceSyncProvider.sync inp d = ⟨0, 0, d⟩) ∧
    (inp.itemsConfigured = true → inp.depInstalled = false →
      ConfluenceSyncProvider.sync inp d = ⟨0, 0, some (d.getD [])⟩) ∧
    (inp.itemsConfigured = true → inp.depInstalled = true →
      inp.upstream = [] →
      ConfluenceSyncProvider.sync inp d = ⟨0, 0, some (d.getD [])⟩) ∧
    ((inp.itemsConfigured = false ∨ inp.depInstalled = false ∨
        inp.upstream = []) →
      (ConfluenceSyncProvider.sync inp d).items_synced = 0 ∧
      ∀ e ∈ d.getD [],
        e ∈ (ConfluenceSyncProvider.sync inp d).dirState.getD []) := by
  refine ⟨?_, ?_, ?_, ?_⟩
  · intro h1
    simp [ConfluenceSyncProvider.sync, h1]
  · intro h1 h2
    simp [ConfluenceSyncProvider.sync, h1, h2]
  · intro h1 h2 h3
    simp [ConfluenceSyncProvider.sync, h1, h2, h3]
  · intro hcase
    rcases hcase with h | h | h
    · simp only [ConfluenceSyncProvider.sync, h]
      exact ⟨rfl, fun e he => he⟩
    · cases hic : inp.itemsConfigured
      · simp only [ConfluenceSyncProvider.sync, hic]
        exact ⟨rfl, fun e he => he⟩
      · simp only [ConfluenceSyncProvider.sync, hic, h]
        refine ⟨rfl, fun e he => ?_⟩
        simpa using he
    · cases hic : inp.itemsConfigured
      · simp only [ConfluenceSyncProvider.sync, hic]
        exact ⟨rfl, fun e he => he⟩
      · cases hdep : inp.depInstalled
        · simp only [ConfluenceSyncProvider.sync, hic, hdep]
          refine ⟨rfl, fun e he => ?_⟩
          simpa using he
        · simp only [ConfluenceSyncProvider.sync, hic, hdep, h]
          refine ⟨rfl, fun e he => ?_⟩
          simpa using he

/-- Witness for C10: missing dependency with one pre-existing file. -/
theorem claim_c10_witness :
    ConfluenceSyncProvider.sync ⟨true, false, []⟩ (some [FsEntry.file "a.md"])
      = ⟨0, 0, some [FsEntry.file "a.md"]⟩ :=
  (claim_c10_early_paths ⟨true, false, []⟩ (some [FsEntry.file "a.md"])).2.1
    rfl rfl

/-- Claim C6: per-item fault isolation of the page loop — the synced
count and the tracked filename set are exactly those of the pages whose
`try` block succeeds (a failing page is counted as not synced), and
dropping any failing page from the list changes nothing: one item's
failure never aborts the run for the other items. -/
theorem claim_c6_fault_isolation (pages : List Page) (l : List FsEntry) :
    (syncLoop pages l).1 = (pages.filter (pageOk l)).length ∧
    (syncLoop pages l).2.1 =
      (pages.filter (pageOk l)).map (fun p => page_filename p.title) ∧
    (∀ pre p post, pages = pre ++ p :: post → p.fails = true →
      syncLoop pages l = syncLoop (pre ++ post) l) := by
  refine ⟨(syncLoop_count_synced pages l).1,
    (syncLoop_count_synced pages l).2, ?_⟩
  rintro pre p post rfl hf
  exact syncLoop_skip pre p post l hf

/-- Witness for C6: a failing page in the middle of a run changes
nothing for the pages around it. -/
theorem claim_c6_witness :
    syncLoop [⟨"ok page", false⟩, ⟨"bad page", true⟩, ⟨"second ok", false⟩] []
      = syncLoop [⟨"ok page", false⟩, ⟨"second ok", false⟩] [] :=
  (claim_c6_fault_isolation
      [⟨"ok page", false⟩, ⟨"bad page", true⟩, ⟨"second ok", false⟩] []).2.2
    [⟨"ok page", false⟩] ⟨"bad page", true⟩ [⟨"second ok", false⟩] rfl rfl

/-- Claim C5 counterexample: run 1 syncs the single page `"a"` into an
empty state, producing `a.md`; in run 2 the upstream is empty (the item
is absent), but the code returns before reconciliation, so `a.md` is
still present and no removal is counted — the claim's convergence clause
fails when the upstream drops to zero collected pages. -/
theorem claim_c5_counterexample :
    (ConfluenceSyncProvider.sync ⟨true, true, [⟨"a", false⟩]⟩ none).dirState
      = some [FsEntry.file "a.md"] ∧
    ConfluenceSyncProvider.sync ⟨true, true, []⟩ (some [FsEntry.file "a.md"])
      = ⟨0, 0, some [FsEntry.file "a.md"]⟩ :=
  ⟨rfl, rfl⟩

/-- Claim C5 (amended): sync is idempotent — a second run against an
unchanged upstream reproduces the same directory state, the same synced
count, and removes nothing.  It is convergent for runs that still collect
at least one page: if no upstream page maps to a given managed (`.md`)
filename, that file is absent from the directory after the run, and if it
was present before the run its removal is counted.  (When a run collects
zero pages it returns before reconciliation and stale files survive — see
the counterexample.) -/
theorem claim_c5_sync_idempotent_convergent :
    (∀ (inp : SyncInput) (d : DirState),
      (ConfluenceSyncProvider.sync inp
          (ConfluenceSyncProvider.sync inp d).dirState).dirState
        = (ConfluenceSyncProvider.sync inp d).dirState ∧
      (ConfluenceSyncProvider.sync inp
          (ConfluenceSyncProvider.sync inp d).dirState).removed = 0 ∧
      (ConfluenceSyncProvider.sync inp
          (ConfluenceSyncProvider.sync inp d).dirState).items_synced
        = (ConfluenceSyncProvider.sync inp d).items_synced) ∧
    (∀ (pages : List Page) (l : List FsEntry) (fn : String),
      pages ≠ [] → isMdName fn = true →
      (∀ q ∈ pages, page_filename q.title ≠ fn) →
      FsEntry.file fn ∉
        (ConfluenceSyncProvider.sync ⟨true, true, pages⟩
          (some l)).dirState.getD [] ∧
      (FsEntry.file fn ∈ l →
        1 ≤ (ConfluenceSyncProvider.sync ⟨true, true, pages⟩
          (some l)).removed)) := by
  constructor
  · intro inp d
    cases hic : inp.itemsConfigured
    case false => simp [ConfluenceSyncProvider.sync, hic]
    case true =>
    cases hdep : inp.depInstalled
    case false => simp [ConfluenceSyncProvider.sync, hic, hdep]
    case true =>
    cases hup : inp.upstream
    case nil => simp [ConfluenceSyncProvider.sync, hic, hdep, hup]
    case cons p ps =>
    have hne : inp.upstream ≠ [] := by
      rw [hup]
      exact List.cons_ne_nil p ps
    have e1 := sync_eq_of_flags inp d hic hdep hne
    have e2 := sync_eq_of_flags inp
      (some ((syncLoop inp.upstream (d.getD [])).2.2.filter
        (fun e => !isStale (syncLoop inp.upstream (d.getD [])).2.1 e)))
      hic hdep hne
    rw [Option.getD_some] at e2
    obtain ⟨h21, h22, h23⟩ := syncLoop_round2 inp.upstream (d.getD [])
    obtain ⟨hnil, hself⟩ := filter_stale_filter_self
      (syncLoop inp.upstream (d.getD [])).2.1
      (syncLoop inp.upstream (d.getD [])).2.2
    rw [e1]
    dsimp only
    rw [e2]
    dsimp only
    refine ⟨?_, ?_, ?_⟩
    · rw [h22, h23, hself]
    · rw [h22, h23, hnil]
      rfl
    · rw [h21]
  · intro pages l fn hne hmd hq
    have e1 := sync_eq_of_flags ⟨true, true, pages⟩ (some l) rfl rfl hne
    rw [Option.getD_some] at e1
    have hsynced := (syncLoop_count_synced pages l).2
    rw [e1]
    dsimp only
    have hfn_nmem : fn ∉ (syncLoop pages l).2.1 := by
      rw [hsynced]
      intro hmem
      obtain ⟨q, hqf, hqe⟩ := List.mem_map.1 hmem
      exact hq q (List.mem_of_mem_filter hqf) hqe
    have hcont : (syncLoop pages l).2.1.contains fn = false :=
      contains_eq_false_of_not_mem hfn_nmem
    have hstale : isStale (syncLoop pages l).2.1 (FsEntry.file fn) = true := by
      simp [isStale, FsEntry.isFile, FsEntry.name, hmd, hcont]
      exact hfn_nmem
    constructor
    · rw [Option.getD_some]
      intro habs
      have h1 := (List.mem_filter.1 habs).2
      rw [hstale] at h1
      exact Bool.noConfusion h1
    · intro hmeml
      have hmem2 : FsEntry.file fn ∈ (syncLoop pages l).2.2 :=
        syncLoop_file_mem pages l hmeml
      exact List.length_pos_of_mem (List.mem_filter.2 ⟨hmem2, hstale⟩)

/-- Witness for C5 (amended): a run that collects one page removes the
stale `gone.md` and does not reproduce it. -/
theorem claim_c5_witness :
    FsEntry.file "gone.md" ∉
      (ConfluenceSyncProvider.sync ⟨true, true, [⟨"keep", false⟩]⟩
        (some [FsEntry.file "gone.md"])).dirState.getD [] ∧
    (FsEntry.file "gone.md" ∈ [FsEntry.file "gone.md"] →
      1 ≤ (ConfluenceSyncProvider.sync ⟨true, true, [⟨"keep", false⟩]⟩
        (some [FsEntry.file "gone.md"])).removed) :=
  claim_c5_sync_idempotent_convergent.2 [⟨"keep", false⟩]
    [FsEntry.file "gone.md"] "gone.md" (by decide) (by decide) (by decide)

end NaoDocs
